import Mathlib

/-!
Shallow embedding of `src/app/main.py` (execution-checklist-mcp).

The source is a FastAPI service with one generation routine `generate_steps`
and one tool-execution endpoint `mcp` (POST /mcp), plus a static
tool-discovery document (GET /mcp).  Python strings are modelled as Lean
`String`; `str.strip()` is modelled by dropping ASCII whitespace from both
ends and `str.lower()` by mapping `Char.toLower` (both agree with Python on
the ASCII range, which is all the catalogs use); Python `k in lower`
(substring test) is modelled by a search over the character lists;
Python `list.append` is modelled by `++ [x]`,
`list[:n]` by `List.take n`, and the `set` `used` by a list used only for
membership tests.  The `raise HTTPException` failure paths of the endpoint
are modelled with `Except`.
-/

namespace App

/-- Does `pat` occur at the start of `l`? (helper for the substring test). -/
def charsStartWith : List Char → List Char → Bool
  | [], _ => true
  | _ :: _, [] => false
  | a :: pa, b :: l => a == b && charsStartWith pa l

/-- Does `pat` occur anywhere inside `l`? (helper for the substring test). -/
def charsContain (pat : List Char) : List Char → Bool
  | [] => charsStartWith pat []
  | b :: l => charsStartWith pat (b :: l) || charsContain pat l

/-- Model of the Python substring test `pat in s` on strings. -/
def containsSubstr (s pat : String) : Bool :=
  charsContain pat.data s.data

/-- Model of Python `str.lower()` (ASCII case folding, as used by the catalogs). -/
def lowerStr (s : String) : String :=
  ⟨s.data.map Char.toLower⟩

/-- The characters removed by Python `str.strip()` (ASCII whitespace). -/
def pyIsSpace (c : Char) : Bool :=
  c == ' ' || c == '\t' || c == '\n' || c == '\r' || c == '\x0b' || c == '\x0c'

/-- Model of Python `str.strip()`: drop leading and trailing whitespace. -/
def pyStrip (s : String) : String :=
  ⟨((s.data.dropWhile pyIsSpace).reverse.dropWhile pyIsSpace).reverse⟩

/-- Model of the frozen `StepTemplate` dataclass from the source. -/
structure StepTemplate where
  title : String
  action : String
  verify : String
  artifacts : List String
deriving DecidableEq, Repr

/-- `ChecklistStep` output model from the source. -/
structure ChecklistStep where
  id : String
  title : String
  action : String
  verify : String
  artifacts : List String
deriving DecidableEq, Repr

/-- Model of the `ChecklistInput` request: `text`, optional `context`,
`max_steps` (conint ge 3 le 12, default 5), `audience` (default "agent"). -/
structure ChecklistInput where
  text : String
  context : Option String
  max_steps : Nat
  audience : String
deriving DecidableEq, Repr

/-- Model of `MCPRequest`: a tool name and a `ChecklistInput`. -/
structure MCPRequest where
  tool : String
  input : ChecklistInput
deriving DecidableEq, Repr

/-- Model of the `ChecklistOutput` response.  Note it has no `state`, `reason` or
`meta` field in the source. -/
structure ChecklistOutput where
  type : String := "checklist"
  audience : String := "agent"
  context : Option String
  steps : List ChecklistStep
  human_summary : String
deriving DecidableEq, Repr

/-- Model of `fastapi.HTTPException`, as raised by the `mcp` endpoint. -/
structure HTTPException where
  status_code : Nat
  detail : String
deriving DecidableEq, Repr

/-- The ordered rule table `KEYWORD_TEMPLATES` of (keyword set, template)
pairs.  Python `set` literals are modelled as lists; only membership is ever
used, so the order is immaterial. -/
def KEYWORD_TEMPLATES : List (List String × StepTemplate) := [
  (["endpoint", "api"],
    { title := "Publish a stable endpoint",
      action := "Deploy and expose a stable HTTP endpoint, then record its URL and method.",
      verify := "Call the endpoint and confirm a 200 response and correct payload shape.",
      artifacts := ["stable endpoint"] }),
  (["error", "errors", "exception", "exceptions", "handle", "handling"],
    { title := "Complete error handling",
      action := "Add error handling for critical flows with explicit error responses.",
      verify := "Trigger a failure path and confirm the response includes status and message.",
      artifacts := [] }),
  (["document", "docs", "documentation", "spec"],
    { title := "Update documentation",
      action := "Write or update documentation covering purpose, steps, and constraints.",
      verify := "Check the documentation includes examples and limitation notes.",
      artifacts := ["documentation"] }),
  (["description", "describe"],
    { title := "Draft requirement summary",
      action := "Summarize key requirements into a short description document.",
      verify := "Confirm the summary covers scope, constraints, and key terms.",
      artifacts := ["description document"] }),
  (["privacy", "policy"],
    { title := "Prepare Privacy Policy",
      action := "Create a Privacy Policy and publish it at a public URL.",
      verify := "Open the URL and confirm it is accessible without login.",
      artifacts := ["privacy policy URL"] }),
  (["terms", "tos"],
    { title := "Prepare Terms of Service",
      action := "Create Terms of Service and publish it at a public URL.",
      verify := "Open the URL and confirm it is accessible without login.",
      artifacts := ["terms of service URL"] })
]

/-- The generic fallback pool `fallback_templates`, a literal list built
inside `generate_steps` on every call (so it is the same list each time). -/
def FALLBACK_TEMPLATES : List StepTemplate := [
  { title := "Clarify execution scope",
    action := "Define the execution scope and key constraints in a checklist.",
    verify := "Verify the scope list includes goals, boundaries, and key terms.",
    artifacts := [] },
  { title := "Break down key tasks",
    action := "Split the work into executable tasks and order them.",
    verify := "Confirm the task list has a clear sequence and owners.",
    artifacts := [] },
  { title := "Review deliverables",
    action := "List expected deliverables and mark their storage locations.",
    verify := "Check each deliverable item maps to an actual output.",
    artifacts := [] },
  { title := "Run a quick validation",
    action := "Execute a small test run to validate the workflow end-to-end.",
    verify := "Confirm outputs are produced and errors are handled clearly.",
    artifacts := ["test output"] },
  { title := "Prepare submission artifacts",
    action := "Prepare the demo recording, app description, and required URLs.",
    verify := "Open each URL and verify it loads correctly without login.",
    artifacts := ["demo video URL"] }
]

/-- Model of Python `any(k in lower for k in keywords)`. -/
def matchesRule (lower : String) (keywords : List String) : Bool :=
  keywords.any (fun k => containsSubstr lower k)

/-- The record `ChecklistStep(id=str(n), **template fields)` appended by the loops. -/
def mkStep (n : Nat) (t : StepTemplate) : ChecklistStep :=
  { id := toString n, title := t.title, action := t.action,
    verify := t.verify, artifacts := t.artifacts }

/-- The placeholder step returned by `generate_steps` for empty text. -/
def emptyTextStep : ChecklistStep :=
  { id := "1", title := "Provide input text",
    action := "Add a non-empty \x27text\x27 field describing what checklist to generate.",
    verify := "Confirm \x27text\x27 is not empty.",
    artifacts := [] }

/-- The keyword loop of `generate_steps`: for each rule in order, if any
keyword occurs in the lowercased text, record the title in `used` and append
a step; after each iteration, if `len(steps) >= max_steps` the whole
function returns `steps[:max_steps]` (modelled by `Sum.inl`); otherwise the
loop finishes with the accumulated steps and used titles (`Sum.inr`). -/
def keywordLoop (lower : String) (maxSteps : Nat) :
    List (List String × StepTemplate) → List ChecklistStep → List String →
    List ChecklistStep ⊕ List ChecklistStep × List String
  | [], steps, used => Sum.inr (steps, used)
  | (keywords, template) :: rest, steps, used =>
    if matchesRule lower keywords then
      let steps' := steps ++ [mkStep (steps.length + 1) template]
      if maxSteps ≤ steps'.length then Sum.inl (steps'.take maxSteps)
      else keywordLoop lower maxSteps rest steps' (template.title :: used)
    else
      if maxSteps ≤ steps.length then Sum.inl (steps.take maxSteps)
      else keywordLoop lower maxSteps rest steps used

/-- The fallback loop of `generate_steps`: for each fallback template in
order, stop once `len(steps) >= max_steps`, skip templates whose title is in
`used`, and otherwise append a step. -/
def fallbackLoop (maxSteps : Nat) (used : List String) :
    List StepTemplate → List ChecklistStep → List ChecklistStep
  | [], steps => steps
  | template :: rest, steps =>
    if maxSteps ≤ steps.length then steps
    else if template.title ∈ used then fallbackLoop maxSteps used rest steps
    else fallbackLoop maxSteps used rest (steps ++ [mkStep (steps.length + 1) template])

/-- The body of `generate_steps`, generalized over the two catalogs (the source reads
the module-level `KEYWORD_TEMPLATES` and the per-call constant
`fallback_templates`). -/
def generate_steps_with (rules : List (List String × StepTemplate))
    (pool : List StepTemplate) (text : String) (max_steps : Nat) :
    List ChecklistStep :=
  let t := pyStrip text
  if t = "" then [emptyTextStep]
  else
    let lower := lowerStr t
    match keywordLoop lower max_steps rules [] [] with
    | Sum.inl early => early
    | Sum.inr (steps, used) =>
      (fallbackLoop max_steps used pool steps).take max_steps

/-- The function `generate_steps(text, max_steps)` from the source. -/
def generate_steps (text : String) (max_steps : Nat) : List ChecklistStep :=
  generate_steps_with KEYWORD_TEMPLATES FALLBACK_TEMPLATES text max_steps

/-- The POST /mcp handler body, generalized over the two catalogs it reads:
unknown tool and wrong audience raise `HTTPException(400, ...)`; otherwise it
builds a `ChecklistOutput` from `generate_steps` with the summary f-string. -/
def mcp_with (rules : List (List String × StepTemplate)) (pool : List StepTemplate)
    (request : MCPRequest) : Except HTTPException ChecklistOutput :=
  if request.tool ≠ "generate_checklist" then
    Except.error { status_code := 400, detail := "Unknown tool" }
  else if request.input.audience ≠ "agent" then
    Except.error { status_code := 400, detail := "Audience must be \x27agent\x27" }
  else
    let steps := generate_steps_with rules pool request.input.text request.input.max_steps
    let summary := "Generated " ++ toString steps.length ++ " checklist steps."
    Except.ok { context := request.input.context, steps := steps, human_summary := summary }

/-- The POST /mcp handler `mcp(request)` from the source. -/
def mcp (request : MCPRequest) : Except HTTPException ChecklistOutput :=
  mcp_with KEYWORD_TEMPLATES FALLBACK_TEMPLATES request

/-- The mutable server state visible to a request: the module-level rule
table and the fallback pool.  `mcp_call` runs one request against that
state, returning the state left behind for the next request; the handler
only ever reads the catalogs, which the returned state reflects. -/
structure ServerState where
  keyword_templates : List (List String × StepTemplate)
  fallback_templates : List StepTemplate
deriving DecidableEq, Repr

/-- The state established once at process start (module initialization). -/
def initState : ServerState :=
  { keyword_templates := KEYWORD_TEMPLATES, fallback_templates := FALLBACK_TEMPLATES }

/-- One request processed against the server state. -/
def mcp_call (s : ServerState) (r : MCPRequest) :
    ServerState × Except HTTPException ChecklistOutput :=
  (s, mcp_with s.keyword_templates s.fallback_templates r)

/-- The titles of a step list, used to state catalog-level properties. -/
def titlesOf (l : List ChecklistStep) : List String :=
  l.map (fun s => s.title)

/-- One property entry of the discovery document's JSON Schema; unused JSON
keys of a given property stay `none`. -/
structure PropertySchema where
  type : String
  description : Option String := none
  enumVals : Option (List String) := none
  defaultStr : Option String := none
  minimum : Option Int := none
  maximum : Option Int := none
  defaultInt : Option Int := none
deriving DecidableEq, Repr

/-- The `input_schema` object of the discovery document. -/
structure InputSchema where
  type : String
  properties : List (String × PropertySchema)
  required : List String
  additionalProperties : Bool
deriving DecidableEq, Repr

/-- One tool entry of the discovery document. -/
structure ToolDescriptor where
  name : String
  description : String
  input_schema : InputSchema
deriving DecidableEq, Repr

/-- The single tool advertised by GET /mcp (`mcp_tools` in the source). -/
def generate_checklist_tool : ToolDescriptor :=
  { name := "generate_checklist",
    description := "Convert input text into a structured execution checklist.",
    input_schema :=
      { type := "object",
        properties := [
          ("text", { type := "string",
                     description := some "Source text to convert into checklist steps" }),
          ("context", { type := "string", description := some "Optional context" }),
          ("audience", { type := "string", enumVals := some ["agent"],
                         defaultStr := some "agent" }),
          ("max_steps", { type := "integer", minimum := some 3, maximum := some 12,
                          defaultInt := some 5 })],
        required := ["text"],
        additionalProperties := false } }

/-- The `tools` list returned by GET /mcp. -/
def mcp_tools : List ToolDescriptor := [generate_checklist_tool]

/-- Pydantic validation of `ChecklistInput` applied to the (possibly absent)
request fields: `text` is required, `max_steps` is `conint(ge=3, le=12)`
with default 5, `audience` defaults to "agent".  Returns `none` when
validation rejects the request. -/
def parseChecklistInput (text : Option String) (context : Option String)
    (max_steps : Option Int) (audience : Option String) : Option ChecklistInput :=
  match text with
  | none => none
  | some t =>
    let m := max_steps.getD 5
    if 3 ≤ m ∧ m ≤ 12 then
      some { text := t, context := context, max_steps := m.toNat,
             audience := audience.getD "agent" }
    else none

/-- The titles selected by the rule table from a lowercased text, in table
order: one per matching rule. -/
def filtTitles (lower : String) (rules : List (List String × StepTemplate)) :
    List String :=
  (rules.filter (fun r => matchesRule lower r.1)).map (fun r => r.2.title)

/-- The number of rule-table rules matching a request text. -/
def matchedCount (text : String) : Nat :=
  (filtTitles (lowerStr (pyStrip text)) KEYWORD_TEMPLATES).length

/-- The id fields of a step list are the contiguous decimal strings
"1".."N" in array order. -/
def idsOk (l : List ChecklistStep) : Prop :=
  l.map (fun s => s.id) = (List.range l.length).map (fun i => toString (i + 1))

/-- The titles of the rule-table templates, in table order. -/
def kwTitles : List String := KEYWORD_TEMPLATES.map (fun r => r.2.title)

/-- The titles of the fallback-pool templates, in pool order. -/
def poolTitles : List String := FALLBACK_TEMPLATES.map (fun t => t.title)

/-- The step list carried out of the keyword loop, in either exit mode. -/
def outSteps : List ChecklistStep ⊕ List ChecklistStep × List String → List ChecklistStep
  | Sum.inl early => early
  | Sum.inr p => p.1

/-- The rule-table titles matched by a request text, truncated at the step
bound, in table order (what the keyword phase of `generate_steps` emits). -/
def matchedTitles (text : String) (m : Nat) : List String :=
  (filtTitles (lowerStr (pyStrip text)) KEYWORD_TEMPLATES).take m

lemma length_titlesOf (l : List ChecklistStep) : (titlesOf l).length = l.length := by
  simp [titlesOf]

lemma titlesOf_append (l1 l2 : List ChecklistStep) :
    titlesOf (l1 ++ l2) = titlesOf l1 ++ titlesOf l2 := by
  simp [titlesOf]

lemma titlesOf_take (l : List ChecklistStep) (n : Nat) :
    titlesOf (l.take n) = (titlesOf l).take n := by
  simp [titlesOf, List.map_take]

lemma idsOk_nil : idsOk [] := rfl

lemma idsOk_append (l : List ChecklistStep) (t : StepTemplate) (h : idsOk l) :
    idsOk (l ++ [mkStep (l.length + 1) t]) := by
  unfold idsOk at h ⊢
  rw [List.map_append, h]
  simp [mkStep, List.range_succ]

lemma idsOk_take (l : List ChecklistStep) (n : Nat) (h : idsOk l) : idsOk (l.take n) := by
  unfold idsOk at h ⊢
  rw [List.map_take, h, List.length_take, ← List.map_take, List.take_range]

lemma take_append_small {α : Type} (A : List α) (x : α) (F : List α) (m : Nat)
    (h : m ≤ A.length + 1) : (A ++ x :: F).take m = (A ++ [x]).take m := by
  rw [List.take_append_eq_append_take, List.take_append_eq_append_take]
  congr 1
  have hk : m - A.length ≤ 1 := by omega
  rcases Nat.le_one_iff_eq_zero_or_eq_one.mp hk with h0 | h1
  · simp [h0]
  · simp [h1]

lemma filtTitles_nil (lower : String) : filtTitles lower [] = [] := rfl

lemma filtTitles_cons_pos (lower : String) (kw : List String) (t : StepTemplate)
    (rest : List (List String × StepTemplate)) (hm : matchesRule lower kw) :
    filtTitles lower ((kw, t) :: rest) = t.title :: filtTitles lower rest := by
  simp [filtTitles, hm]

lemma filtTitles_cons_neg (lower : String) (kw : List String) (t : StepTemplate)
    (rest : List (List String × StepTemplate)) (hm : ¬ matchesRule lower kw) :
    filtTitles lower ((kw, t) :: rest) = filtTitles lower rest := by
  simp [filtTitles, hm]

lemma keywordLoop_inl_length (lower : String) (m : Nat)
    (rules : List (List String × StepTemplate)) :
    ∀ (steps : List ChecklistStep) (used : List String) (early : List ChecklistStep),
      steps.length < m → keywordLoop lower m rules steps used = Sum.inl early →
      early.length = m := by
  induction rules with
  | nil =>
    intro steps used early h heq
    simp [keywordLoop] at heq
  | cons r rest ih =>
    intro steps used early h heq
    obtain ⟨keywords, template⟩ := r
    simp only [keywordLoop] at heq
    by_cases hm : matchesRule lower keywords
    · rw [if_pos hm] at heq
      by_cases hle : m ≤ (steps ++ [mkStep (steps.length + 1) template]).length
      · rw [if_pos hle] at heq
        cases heq
        simp only [List.length_take, List.length_append, List.length_cons,
          List.length_nil] at hle ⊢
        omega
      · rw [if_neg hle] at heq
        exact ih _ _ _ (by simp only [List.length_append, List.length_cons,
          List.length_nil] at hle ⊢; omega) heq
    · rw [if_neg hm] at heq
      have hle : ¬ (m ≤ steps.length) := by omega
      rw [if_neg hle] at heq
      exact ih _ _ _ h heq

lemma keywordLoop_inr_length (lower : String) (m : Nat)
    (rules : List (List String × StepTemplate)) :
    ∀ (steps : List ChecklistStep) (used : List String)
      (p : List ChecklistStep × List String),
      steps.length < m → keywordLoop lower m rules steps used = Sum.inr p →
      p.1.length < m := by
  induction rules with
  | nil =>
    intro steps used p h heq
    simp only [keywordLoop] at heq
    cases heq
    exact h
  | cons r rest ih =>
    intro steps used p h heq
    obtain ⟨keywords, template⟩ := r
    simp only [keywordLoop] at heq
    by_cases hm : matchesRule lower keywords
    · rw [if_pos hm] at heq
      by_cases hle : m ≤ (steps ++ [mkStep (steps.length + 1) template]).length
      · rw [if_pos hle] at heq; cases heq
      · rw [if_neg hle] at heq
        exact ih _ _ _ (by simp only [List.length_append, List.length_cons,
          List.length_nil] at hle ⊢; omega) heq
    · rw [if_neg hm] at heq
      have hle : ¬ (m ≤ steps.length) := by omega
      rw [if_neg hle] at heq
      exact ih _ _ _ h heq

lemma keywordLoop_titles (lower : String) (m : Nat)
    (rules : List (List String × StepTemplate)) :
    ∀ (steps : List ChecklistStep) (used : List String), steps.length ≤ m →
      titlesOf (outSteps (keywordLoop lower m rules steps used)) =
        (titlesOf steps ++ filtTitles lower rules).take m := by
  induction rules with
  | nil =>
    intro steps used h
    simp only [keywordLoop, outSteps, filtTitles_nil, List.append_nil]
    rw [List.take_of_length_le (by rw [length_titlesOf]; exact h)]
  | cons r rest ih =>
    intro steps used h
    obtain ⟨keywords, template⟩ := r
    simp only [keywordLoop]
    by_cases hm : matchesRule lower keywords
    · rw [if_pos hm, filtTitles_cons_pos lower _ _ _ hm]
      by_cases hle : m ≤ (steps ++ [mkStep (steps.length + 1) template]).length
      · rw [if_pos hle]
        simp only [outSteps]
        rw [titlesOf_take, titlesOf_append]
        have h1 : titlesOf [mkStep (steps.length + 1) template] = [template.title] := rfl
        rw [h1]
        refine (take_append_small _ _ _ _ ?_).symm
        rw [length_titlesOf]
        simp only [List.length_append, List.length_cons, List.length_nil] at hle
        omega
      · rw [if_neg hle]
        have hle' : (steps ++ [mkStep (steps.length + 1) template]).length ≤ m := by
          simp only [List.length_append, List.length_cons, List.length_nil] at hle ⊢
          omega
        rw [ih _ (template.title :: used) hle', titlesOf_append]
        have h1 : titlesOf [mkStep (steps.length + 1) template] = [template.title] := rfl
        rw [h1, List.append_assoc]
        rfl
    · rw [if_neg hm, filtTitles_cons_neg lower _ _ _ hm]
      have hle : ¬ (m ≤ steps.length) ∨ m ≤ steps.length := by omega
      by_cases hle : m ≤ steps.length
      · rw [if_pos hle]
        simp only [outSteps]
        have hms : m = steps.length := by omega
        rw [titlesOf_take]
        rw [List.take_of_length_le (by rw [length_titlesOf]; omega)]
        rw [List.take_append_eq_append_take]
        rw [List.take_of_length_le (by rw [length_titlesOf]; omega)]
        have : m - (titlesOf steps).length = 0 := by rw [length_titlesOf]; omega
        rw [this]
        simp
      · rw [if_neg hle]
        exact ih _ _ h

lemma keywordLoop_ids (lower : String) (m : Nat)
    (rules : List (List String × StepTemplate)) :
    ∀ (steps : List ChecklistStep) (used : List String), idsOk steps →
      idsOk (outSteps (keywordLoop lower m rules steps used)) := by
  induction rules with
  | nil => intro steps used h; simpa [keywordLoop, outSteps] using h
  | cons r rest ih =>
    intro steps used h
    obtain ⟨keywords, template⟩ := r
    simp only [keywordLoop]
    by_cases hm : matchesRule lower keywords
    · rw [if_pos hm]
      by_cases hle : m ≤ (steps ++ [mkStep (steps.length + 1) template]).length
      · rw [if_pos hle]
        exact idsOk_take _ _ (idsOk_append _ _ h)
      · rw [if_neg hle]
        exact ih _ _ (idsOk_append _ _ h)
    · rw [if_neg hm]
      by_cases hle : m ≤ steps.length
      · rw [if_pos hle]
        exact idsOk_take _ _ h
      · rw [if_neg hle]
        exact ih _ _ h

lemma keywordLoop_used (lower : String) (m : Nat)
    (rules : List (List String × StepTemplate)) :
    ∀ (steps : List ChecklistStep) (used : List String)
      (p : List ChecklistStep × List String),
      keywordLoop lower m rules steps used = Sum.inr p →
      ∀ x ∈ p.2, x ∈ used ∨ x ∈ rules.map (fun r => r.2.title) := by
  induction rules with
  | nil =>
    intro steps used p heq x hx
    simp only [keywordLoop] at heq
    cases heq
    exact Or.inl hx
  | cons r rest ih =>
    intro steps used p heq x hx
    obtain ⟨keywords, template⟩ := r
    simp only [keywordLoop] at heq
    by_cases hm : matchesRule lower keywords
    · rw [if_pos hm] at heq
      by_cases hle : m ≤ (steps ++ [mkStep (steps.length + 1) template]).length
      · rw [if_pos hle] at heq; cases heq
      · rw [if_neg hle] at heq
        rcases ih _ _ _ heq x hx with hu | hr
        · rcases List.mem_cons.mp hu with he | hu'
          · exact Or.inr (by rw [he]; exact List.mem_cons_self _ _)
          · exact Or.inl hu'
        · exact Or.inr (List.mem_cons_of_mem _ hr)
    · rw [if_neg hm] at heq
      by_cases hle : m ≤ steps.length
      · rw [if_pos hle] at heq; cases heq
      · rw [if_neg hle] at heq
        rcases ih _ _ _ heq x hx with hu | hr
        · exact Or.inl hu
        · exact Or.inr (List.mem_cons_of_mem _ hr)

lemma fallbackLoop_eq_append (m : Nat) (used : List String) :
    ∀ (pool : List StepTemplate) (steps : List ChecklistStep),
      ∃ ga, fallbackLoop m used pool steps = steps ++ ga := by
  intro pool
  induction pool with
  | nil => intro steps; exact ⟨[], by simp [fallbackLoop]⟩
  | cons t rest ih =>
    intro steps
    simp only [fallbackLoop]
    by_cases hle : m ≤ steps.length
    · exact ⟨[], by rw [if_pos hle]; simp⟩
    · rw [if_neg hle]
      by_cases hu : t.title ∈ used
      · rw [if_pos hu]; exact ih steps
      · rw [if_neg hu]
        obtain ⟨ga, hga⟩ := ih (steps ++ [mkStep (steps.length + 1) t])
        exact ⟨mkStep (steps.length + 1) t :: ga, by rw [hga, List.append_assoc]; rfl⟩

lemma fallbackLoop_ids (m : Nat) (used : List String) :
    ∀ (pool : List StepTemplate) (steps : List ChecklistStep), idsOk steps →
      idsOk (fallbackLoop m used pool steps) := by
  intro pool
  induction pool with
  | nil => intro steps h; simpa [fallbackLoop] using h
  | cons t rest ih =>
    intro steps h
    simp only [fallbackLoop]
    by_cases hle : m ≤ steps.length
    · rw [if_pos hle]; exact h
    · rw [if_neg hle]
      by_cases hu : t.title ∈ used
      · rw [if_pos hu]; exact ih _ h
      · rw [if_neg hu]; exact ih _ (idsOk_append _ _ h)

lemma fallbackLoop_titles_sub (m : Nat) (used : List String) :
    ∀ (pool : List StepTemplate) (steps : List ChecklistStep),
      List.Sublist (titlesOf (fallbackLoop m used pool steps))
        (titlesOf steps ++ pool.map (fun t => t.title)) := by
  intro pool
  induction pool with
  | nil => intro steps; simp [fallbackLoop]
  | cons t rest ih =>
    intro steps
    simp only [fallbackLoop, List.map_cons]
    by_cases hle : m ≤ steps.length
    · rw [if_pos hle]; exact List.sublist_append_left _ _
    · rw [if_neg hle]
      by_cases hu : t.title ∈ used
      · rw [if_pos hu]
        exact (ih steps).trans (List.Sublist.append_left (List.sublist_cons_self _ _) _)
      · rw [if_neg hu]
        have := ih (steps ++ [mkStep (steps.length + 1) t])
        rw [titlesOf_append] at this
        have h1 : titlesOf [mkStep (steps.length + 1) t] = [t.title] := rfl
        rw [h1, List.append_assoc] at this
        exact this

lemma fallbackLoop_length (m : Nat) (used : List String) :
    ∀ (pool : List StepTemplate) (steps : List ChecklistStep),
      (∀ tpl ∈ pool, tpl.title ∉ used) → steps.length ≤ m →
      (fallbackLoop m used pool steps).length = min m (steps.length + pool.length) := by
  intro pool
  induction pool with
  | nil =>
    intro steps _ h
    simp only [fallbackLoop, List.length_nil, Nat.add_zero]
    omega
  | cons t rest ih =>
    intro steps hdisj h
    simp only [fallbackLoop, List.length_cons]
    by_cases hle : m ≤ steps.length
    · rw [if_pos hle]
      omega
    · rw [if_neg hle]
      rw [if_neg (hdisj t (List.mem_cons_self _ _))]
      rw [ih _ (fun tpl ht => hdisj tpl (List.mem_cons_of_mem _ ht))
        (by simp only [List.length_append, List.length_cons, List.length_nil]; omega)]
      simp only [List.length_append, List.length_cons, List.length_nil]
      omega

lemma catalog_nodup : (kwTitles ++ poolTitles).Nodup := by decide

lemma pool_disjoint_kw : ∀ tpl ∈ FALLBACK_TEMPLATES, tpl.title ∉ kwTitles := by decide

lemma pool_length : FALLBACK_TEMPLATES.length = 5 := rfl

lemma filtTitles_sublist (lower : String) (rules : List (List String × StepTemplate)) :
    List.Sublist (filtTitles lower rules) (rules.map (fun r => r.2.title)) :=
  List.Sublist.map _ (List.filter_sublist _)

lemma generate_steps_length (text : String) (m : Nat) (hne : pyStrip text ≠ "")
    (h3 : 3 ≤ m) :
    3 ≤ (generate_steps text m).length ∧ (generate_steps text m).length ≤ m := by
  simp only [generate_steps, generate_steps_with, if_neg hne]
  cases hkl : keywordLoop (lowerStr (pyStrip text)) m KEYWORD_TEMPLATES [] [] with
  | inl early =>
    have hlen := keywordLoop_inl_length _ m _ [] [] early (by simp; omega) hkl
    show 3 ≤ early.length ∧ early.length ≤ m
    omega
  | inr p =>
    obtain ⟨st, u⟩ := p
    have hlt := keywordLoop_inr_length _ m _ [] [] (st, u) (by simp; omega) hkl
    have hused := keywordLoop_used _ m _ [] [] (st, u) hkl
    have hdisj : ∀ tpl ∈ FALLBACK_TEMPLATES, tpl.title ∉ u := by
      intro tpl ht hmem
      rcases hused _ hmem with h0 | hk
      · exact List.not_mem_nil _ h0
      · exact pool_disjoint_kw tpl ht hk
    simp only at hlt
    have hfb := fallbackLoop_length m u FALLBACK_TEMPLATES st hdisj (by omega)
    show 3 ≤ ((fallbackLoop m u FALLBACK_TEMPLATES st).take m).length ∧
      ((fallbackLoop m u FALLBACK_TEMPLATES st).take m).length ≤ m
    rw [List.length_take, hfb, pool_length]
    omega

lemma generate_steps_idsOk (t : String) (m : Nat) : idsOk (generate_steps t m) := by
  simp only [generate_steps, generate_steps_with]
  by_cases hne : pyStrip t = ""
  · rw [if_pos hne]
    show [emptyTextStep].map (fun s => s.id) = (List.range 1).map (fun i => toString (i + 1))
    decide
  · rw [if_neg hne]
    cases hkl : keywordLoop (lowerStr (pyStrip t)) m KEYWORD_TEMPLATES [] [] with
    | inl early =>
      have hids := keywordLoop_ids (lowerStr (pyStrip t)) m KEYWORD_TEMPLATES [] [] idsOk_nil
      rw [hkl] at hids
      exact hids
    | inr p =>
      obtain ⟨st, u⟩ := p
      have hids := keywordLoop_ids (lowerStr (pyStrip t)) m KEYWORD_TEMPLATES [] [] idsOk_nil
      rw [hkl] at hids
      simp only [outSteps] at hids
      exact idsOk_take _ _ (fallbackLoop_ids m u FALLBACK_TEMPLATES st hids)

lemma generate_steps_titles_nodup (t : String) (m : Nat) :
    (titlesOf (generate_steps t m)).Nodup := by
  simp only [generate_steps, generate_steps_with]
  by_cases hne : pyStrip t = ""
  · rw [if_pos hne]
    decide
  · rw [if_neg hne]
    cases hkl : keywordLoop (lowerStr (pyStrip t)) m KEYWORD_TEMPLATES [] [] with
    | inl early =>
      have ht := keywordLoop_titles (lowerStr (pyStrip t)) m KEYWORD_TEMPLATES [] []
        (by simp)
      rw [hkl] at ht
      simp only [outSteps] at ht
      have hsub : List.Sublist (titlesOf early) (kwTitles ++ poolTitles) := by
        rw [ht]
        refine List.Sublist.trans (List.take_sublist _ _) ?_
        refine List.Sublist.trans ?_ (List.sublist_append_left _ _)
        simpa [titlesOf] using filtTitles_sublist (lowerStr (pyStrip t)) KEYWORD_TEMPLATES
      exact List.Nodup.sublist hsub catalog_nodup
    | inr p =>
      obtain ⟨st, u⟩ := p
      have ht := keywordLoop_titles (lowerStr (pyStrip t)) m KEYWORD_TEMPLATES [] []
        (by simp)
      rw [hkl] at ht
      simp only [outSteps] at ht
      have hsub1 : List.Sublist (titlesOf st) kwTitles := by
        rw [ht]
        refine List.Sublist.trans (List.take_sublist _ _) ?_
        simpa [titlesOf] using filtTitles_sublist (lowerStr (pyStrip t)) KEYWORD_TEMPLATES
      have hsub : List.Sublist
          (titlesOf ((fallbackLoop m u FALLBACK_TEMPLATES st).take m))
          (kwTitles ++ poolTitles) := by
        rw [titlesOf_take]
        refine List.Sublist.trans (List.take_sublist _ _) ?_
        refine List.Sublist.trans (fallbackLoop_titles_sub m u FALLBACK_TEMPLATES st) ?_
        exact List.Sublist.append hsub1 (List.Sublist.refl _)
      exact List.Nodup.sublist hsub catalog_nodup

lemma titlesOf_nil : titlesOf [] = [] := rfl

lemma keywordLoop_zero_cons (lower : String) (kw : List String) (tpl : StepTemplate)
    (rest : List (List String × StepTemplate)) (steps : List ChecklistStep)
    (used : List String) :
    keywordLoop lower 0 ((kw, tpl) :: rest) steps used = Sum.inl [] := by
  simp [keywordLoop]

lemma keywordLoop_inr_exact (lower : String) (m : Nat) (st : List ChecklistStep)
    (u : List String) (hmpos : 0 < m)
    (hkl : keywordLoop lower m KEYWORD_TEMPLATES [] [] = Sum.inr (st, u)) :
    titlesOf st = filtTitles lower KEYWORD_TEMPLATES ∧
    st.length = (filtTitles lower KEYWORD_TEMPLATES).length ∧
    (filtTitles lower KEYWORD_TEMPLATES).length < m := by
  have hlt := keywordLoop_inr_length lower m KEYWORD_TEMPLATES [] [] (st, u)
    (by simpa using hmpos) hkl
  simp only at hlt
  have ht := keywordLoop_titles lower m KEYWORD_TEMPLATES [] [] (by simp)
  rw [hkl] at ht
  simp only [outSteps, titlesOf_nil, List.nil_append] at ht
  have hlen : st.length = min m (filtTitles lower KEYWORD_TEMPLATES).length := by
    have h := congrArg List.length ht
    rw [length_titlesOf, List.length_take] at h
    exact h
  have hflt : (filtTitles lower KEYWORD_TEMPLATES).length < m := by omega
  refine ⟨?_, by omega, hflt⟩
  rw [ht, List.take_of_length_le (by omega)]

lemma generate_steps_empty (t : String) (m : Nat) (h : pyStrip t = "") :
    generate_steps t m = [emptyTextStep] := by
  simp [generate_steps, generate_steps_with, h]

lemma mcp_unknown_tool (r : MCPRequest) (h : r.tool ≠ "generate_checklist") :
    mcp r = Except.error ⟨400, "Unknown tool"⟩ := by
  simp only [mcp, mcp_with]
  rw [if_pos h]

lemma mcp_bad_audience (r : MCPRequest) (htool : r.tool = "generate_checklist")
    (haud : r.input.audience ≠ "agent") :
    mcp r = Except.error ⟨400, "Audience must be \x27agent\x27"⟩ := by
  have h1 : ¬ (r.tool ≠ "generate_checklist") := fun h => h htool
  simp only [mcp, mcp_with]
  rw [if_neg h1, if_pos haud]

lemma mcp_ok (r : MCPRequest) (htool : r.tool = "generate_checklist")
    (haud : r.input.audience = "agent") :
    mcp r = Except.ok ⟨"checklist", "agent", r.input.context,
      generate_steps r.input.text r.input.max_steps,
      "Generated " ++ toString (generate_steps r.input.text r.input.max_steps).length
        ++ " checklist steps."⟩ := by
  have h1 : ¬ (r.tool ≠ "generate_checklist") := fun h => h htool
  have h2 : ¬ (r.input.audience ≠ "agent") := fun h => h haud
  simp only [mcp, mcp_with]
  rw [if_neg h1, if_neg h2]
  rfl

/-- Claim C1: every request passing validation (non-empty trimmed text,
3 ≤ max_steps ≤ 12, audience "agent", tool "generate_checklist") yields a
checklist with 3 ≤ len(steps) ≤ max_steps. -/
theorem claim_C1_step_count_bounds (r : MCPRequest)
    (htool : r.tool = "generate_checklist") (haud : r.input.audience = "agent")
    (htext : pyStrip r.input.text ≠ "")
    (h3 : 3 ≤ r.input.max_steps) (_h12 : r.input.max_steps ≤ 12) :
    ∃ out, mcp r = Except.ok out ∧
      3 ≤ out.steps.length ∧ out.steps.length ≤ r.input.max_steps := by
  have hlen := generate_steps_length r.input.text r.input.max_steps htext h3
  exact ⟨_, mcp_ok r htool haud, hlen.1, hlen.2⟩

/-- Witness for claim C1 at a concrete validated request. -/
theorem claim_C1_witness :
    (pyStrip "Deploy the api endpoint" ≠ "" ∧ 3 ≤ 5 ∧ 5 ≤ 12) ∧
    (∃ out, mcp ⟨"generate_checklist", ⟨"Deploy the api endpoint", none, 5, "agent"⟩⟩ =
        Except.ok out ∧ 3 ≤ out.steps.length ∧ out.steps.length ≤ 5) :=
  ⟨⟨by decide, by decide, by decide⟩,
   claim_C1_step_count_bounds
     ⟨"generate_checklist", ⟨"Deploy the api endpoint", none, 5, "agent"⟩⟩
     rfl rfl (by decide) (by decide) (by decide)⟩

/-- Counterexample to claim C2: the text "api docs" contains keywords of two
distinct rules, yet the output contains the templates of BOTH rules, not
only the earlier one: evaluation does not stop at the first match. -/
theorem claim_C2_counterexample :
    "Publish a stable endpoint" ∈ titlesOf (generate_steps "api docs" 5) ∧
    "Update documentation" ∈ titlesOf (generate_steps "api docs" 5) := by
  refine ⟨?_, ?_⟩ <;> decide

/-- Claim C2 as amended: every rule whose keyword set matches contributes
its template, in table order (capped at max_steps): the matched titles,
truncated at max_steps, are an initial segment of the output titles. -/
theorem claim_C2_amended (t : String) (m : Nat) (hne : pyStrip t ≠ "") :
    (titlesOf (generate_steps t m)).take (matchedTitles t m).length =
      matchedTitles t m := by
  simp only [generate_steps, generate_steps_with, if_neg hne]
  cases hkl : keywordLoop (lowerStr (pyStrip t)) m KEYWORD_TEMPLATES [] [] with
  | inl early =>
    have ht := keywordLoop_titles (lowerStr (pyStrip t)) m KEYWORD_TEMPLATES [] []
      (by simp)
    rw [hkl] at ht
    simp only [outSteps, titlesOf_nil, List.nil_append] at ht
    show (titlesOf early).take (matchedTitles t m).length = matchedTitles t m
    rw [ht]
    exact List.take_length _
  | inr p =>
    obtain ⟨st, u⟩ := p
    rcases Nat.eq_zero_or_pos m with rfl | hmpos
    · have h0 : keywordLoop (lowerStr (pyStrip t)) 0 KEYWORD_TEMPLATES [] [] =
          Sum.inl [] := keywordLoop_zero_cons _ _ _ _ _ _
      rw [h0] at hkl
      simp at hkl
    · obtain ⟨hst, hstlen, hflt⟩ :=
        keywordLoop_inr_exact (lowerStr (pyStrip t)) m st u hmpos hkl
      obtain ⟨ga, hga⟩ := fallbackLoop_eq_append m u FALLBACK_TEMPLATES st
      show (titlesOf ((fallbackLoop m u FALLBACK_TEMPLATES st).take m)).take
          (matchedTitles t m).length = matchedTitles t m
      rw [hga, titlesOf_take, titlesOf_append, hst]
      have hmt : matchedTitles t m =
          filtTitles (lowerStr (pyStrip t)) KEYWORD_TEMPLATES := by
        simp only [matchedTitles]
        exact List.take_of_length_le (by omega)
      rw [hmt, List.take_append_eq_append_take,
        List.take_of_length_le
          (by omega : (filtTitles (lowerStr (pyStrip t)) KEYWORD_TEMPLATES).length ≤ m)]
      exact List.take_left _ _

/-- Witness for the amended claim C2 at a concrete two-rule text. -/
theorem claim_C2_witness :
    pyStrip "api docs" ≠ "" ∧
    (titlesOf (generate_steps "api docs" 5)).take (matchedTitles "api docs" 5).length =
      matchedTitles "api docs" 5 :=
  ⟨by decide, claim_C2_amended "api docs" 5 (by decide)⟩

/-- Counterexample to claim C3: a whitespace-only text yields ONE placeholder
step (not zero), and the output is the plain success shape (the output model
has no state field at all). -/
theorem claim_C3_counterexample :
    mcp ⟨"generate_checklist", ⟨"   ", none, 8, "agent"⟩⟩ =
      Except.ok ⟨"checklist", "agent", none, [emptyTextStep],
        "Generated 1 checklist steps."⟩ ∧
    [emptyTextStep] ≠ ([] : List ChecklistStep) :=
  ⟨rfl, by decide⟩

/-- Claim C3 as amended: for empty or whitespace-only text (with valid tool
and audience) the result carries exactly the single placeholder step
"Provide input text" with id "1"; there is no failure state in the output. -/
theorem claim_C3_amended (r : MCPRequest) (htool : r.tool = "generate_checklist")
    (haud : r.input.audience = "agent") (hempty : pyStrip r.input.text = "") :
    mcp r = Except.ok ⟨"checklist", "agent", r.input.context, [emptyTextStep],
      "Generated 1 checklist steps."⟩ := by
  rw [mcp_ok r htool haud, generate_steps_empty r.input.text r.input.max_steps hempty]
  rfl

/-- Witness for the amended claim C3 at a concrete whitespace request. -/
theorem claim_C3_witness :
    pyStrip "   " = "" ∧
    mcp ⟨"generate_checklist", ⟨"   ", none, 8, "agent"⟩⟩ =
      Except.ok ⟨"checklist", "agent", none, [emptyTextStep],
        "Generated 1 checklist steps."⟩ :=
  ⟨by decide,
   claim_C3_amended ⟨"generate_checklist", ⟨"   ", none, 8, "agent"⟩⟩ rfl rfl (by decide)⟩

/-- Counterexample to claim C4: an unknown tool identifier raises a
transport-level HTTP 400 error instead of returning a result-shaped
failure. -/
theorem claim_C4_counterexample :
    mcp ⟨"bogus", ⟨"hello", none, 5, "agent"⟩⟩ =
      Except.error ⟨400, "Unknown tool"⟩ := rfl

/-- Claim C4 as amended: unknown tool and wrong audience raise HTTP 400
transport errors; only empty text returns the success result shape, and it
carries one placeholder step rather than an empty steps array. -/
theorem claim_C4_amended :
    (∀ r : MCPRequest, r.tool ≠ "generate_checklist" →
       mcp r = Except.error ⟨400, "Unknown tool"⟩) ∧
    (∀ r : MCPRequest, r.tool = "generate_checklist" → r.input.audience ≠ "agent" →
       mcp r = Except.error ⟨400, "Audience must be \x27agent\x27"⟩) ∧
    (∀ r : MCPRequest, r.tool = "generate_checklist" → r.input.audience = "agent" →
       pyStrip r.input.text = "" →
       mcp r = Except.ok ⟨"checklist", "agent", r.input.context, [emptyTextStep],
         "Generated 1 checklist steps."⟩) :=
  ⟨fun r h => mcp_unknown_tool r h,
   fun r htool haud => mcp_bad_audience r htool haud,
   fun r htool haud hempty => by
     rw [mcp_ok r htool haud, generate_steps_empty r.input.text r.input.max_steps hempty]
     rfl⟩

/-- Witness for the amended claim C4 at a concrete unknown-tool request. -/
theorem claim_C4_witness :
    ("bogus" : String) ≠ "generate_checklist" ∧
    mcp ⟨"bogus", ⟨"hello", none, 5, "agent"⟩⟩ = Except.error ⟨400, "Unknown tool"⟩ :=
  ⟨by decide, claim_C4_amended.1 ⟨"bogus", ⟨"hello", none, 5, "agent"⟩⟩ (by decide)⟩

/-- Counterexample to claim C5: "api" matches exactly one rule
(0 < matched < 3), yet with max_steps = 5 the result has 5 steps — padding
continues past length 3 and appends distinct pool entries in order, not
the single entry pool[matched mod pool_size] repeated until length 3. -/
theorem claim_C5_counterexample :
    matchedCount "api" = 1 ∧ (generate_steps "api" 5).length = 5 := by
  refine ⟨?_, ?_⟩ <;> decide

/-- Claim C5 as amended: if 0 < matched < 3, fallback templates are appended
in pool order until the list reaches min(max_steps, matched + pool_size);
padding does not stop at 3. -/
theorem claim_C5_amended (t : String) (m : Nat) (hne : pyStrip t ≠ "")
    (h3 : 3 ≤ m) (h0 : 0 < matchedCount t) (hlt : matchedCount t < 3) :
    (generate_steps t m).length = min m (matchedCount t + FALLBACK_TEMPLATES.length) := by
  simp only [generate_steps, generate_steps_with, if_neg hne]
  cases hkl : keywordLoop (lowerStr (pyStrip t)) m KEYWORD_TEMPLATES [] [] with
  | inl early =>
    exfalso
    have hlen := keywordLoop_inl_length _ m _ [] [] early (by simp; omega) hkl
    have ht := keywordLoop_titles (lowerStr (pyStrip t)) m KEYWORD_TEMPLATES [] []
      (by simp)
    rw [hkl] at ht
    simp only [outSteps, titlesOf_nil, List.nil_append] at ht
    have h := congrArg List.length ht
    rw [length_titlesOf, List.length_take, hlen] at h
    have hmc : matchedCount t =
        (filtTitles (lowerStr (pyStrip t)) KEYWORD_TEMPLATES).length := rfl
    omega
  | inr p =>
    obtain ⟨st, u⟩ := p
    obtain ⟨hst, hstlen, hflt⟩ :=
      keywordLoop_inr_exact (lowerStr (pyStrip t)) m st u (by omega) hkl
    have hused := keywordLoop_used _ m _ [] [] (st, u) hkl
    have hdisj : ∀ tpl ∈ FALLBACK_TEMPLATES, tpl.title ∉ u := by
      intro tpl htl hmem
      rcases hused _ hmem with hmem0 | hk
      · exact List.not_mem_nil _ hmem0
      · exact pool_disjoint_kw tpl htl hk
    have hfb := fallbackLoop_length m u FALLBACK_TEMPLATES st hdisj (by omega)
    show ((fallbackLoop m u FALLBACK_TEMPLATES st).take m).length = _
    rw [List.length_take, hfb]
    have hmc : matchedCount t =
        (filtTitles (lowerStr (pyStrip t)) KEYWORD_TEMPLATES).length := rfl
    rw [pool_length]
    omega

/-- Witness for the amended claim C5 at the one-match text "api". -/
theorem claim_C5_witness :
    (pyStrip "api" ≠ "" ∧ 3 ≤ 5 ∧ 0 < matchedCount "api" ∧ matchedCount "api" < 3) ∧
    (generate_steps "api" 5).length = min 5 (matchedCount "api" + FALLBACK_TEMPLATES.length) :=
  ⟨⟨by decide, by decide, by decide, by decide⟩,
   claim_C5_amended "api" 5 (by decide) (by decide) (by decide) (by decide)⟩

/-- Claim C6: the id fields of every generated checklist are exactly the
contiguous string sequence "1".."N" in final array order, for every input
text and step bound (padding, truncation and the empty-text placeholder
included). -/
theorem claim_C6_contiguous_ids (t : String) (m : Nat) :
    (generate_steps t m).map (fun s => s.id) =
      (List.range (generate_steps t m).length).map (fun i => toString (i + 1)) :=
  generate_steps_idsOk t m

/-- Counterexample to claim C7: max_steps does not default to 8 — the
pydantic model defaults it to 5 and the discovery document advertises 5. -/
theorem claim_C7_counterexample :
    (parseChecklistInput (some "task") none none none).map (fun i => i.max_steps) ≠
      some 8 ∧
    ((generate_checklist_tool.input_schema.properties.lookup "max_steps").bind
      (fun p => p.defaultInt)) ≠ some 8 := by
  refine ⟨?_, ?_⟩ <;> decide

/-- Claim C7 as amended: when max_steps is omitted it defaults to 5, and the
tool-discovery document advertises 5 as the default. -/
theorem claim_C7_amended :
    (∀ (t : String) (c a : Option String),
      (parseChecklistInput (some t) c none a).map (fun i => i.max_steps) = some 5) ∧
    ((generate_checklist_tool.input_schema.properties.lookup "max_steps").bind
      (fun p => p.defaultInt)) = some 5 := by
  constructor
  · intro t c a
    norm_num [parseChecklistInput]
    decide
  · rfl

/-- Claim C8: the generation pipeline is a pure function of
(text, max_steps) — identical inputs give identical output. -/
theorem claim_C8_determinism (t₁ t₂ : String) (m₁ m₂ : Nat)
    (ht : t₁ = t₂) (hm : m₁ = m₂) :
    generate_steps t₁ m₁ = generate_steps t₂ m₂ := by rw [ht, hm]

/-- Witness for claim C8 at a concrete repeated input. -/
theorem claim_C8_witness :
    ("deploy the api" : String) = "deploy the api" ∧ (5 : Nat) = 5 ∧
    generate_steps "deploy the api" 5 = generate_steps "deploy the api" 5 :=
  ⟨rfl, rfl, claim_C8_determinism "deploy the api" "deploy the api" 5 5 rfl rfl⟩

/-- Claim C9: processing a request leaves the rule table and the fallback
pool of the server state unchanged — the catalogs are identical before and
after every call. -/
theorem claim_C9_catalogs_readonly (s : ServerState) (r : MCPRequest) :
    (mcp_call s r).1.keyword_templates = s.keyword_templates ∧
    (mcp_call s r).1.fallback_templates = s.fallback_templates :=
  ⟨rfl, rfl⟩

/-- Claim C10: for every input, the step titles of the returned checklist
are pairwise distinct. -/
theorem claim_C10_titles_distinct (t : String) (m : Nat) :
    ((generate_steps t m).map (fun s => s.title)).Nodup :=
  generate_steps_titles_nodup t m

end App
